import Mathlib

/-!
# Verification of the StrengthLog client core

Shallow embedding of the StrengthLog MCP server's core
(`strengthlog/client.py`, `strengthlog/auth.py`) and proofs of the
spec's testable properties.

Conventions of the embedding:
* Firestore wire values are the inductive `FireValue`; a JSON object with
  one type-tag key becomes the corresponding constructor, and an object
  whose single tag is not one of the recognized tags becomes
  `FireValue.unknown tag`.  `integerValue` payloads arrive on the wire as
  decimal strings and Python converts them with `int(...)`; the embedding
  carries the already-parsed integer.  `doubleValue` payloads are carried
  as exact rationals (no floating-point rounding is at stake in any
  property proved here).
* Decoded Python values (the output of `_parse_firestore_value`) are the
  inductive `PyVal`; Python dicts become association lists in insertion
  order (Python dicts preserve insertion order).
* Python's `list.sort`/`sorted` (Timsort, stable) is embedded as a stable
  insertion sort `sortBy`, which computes by `rfl`/`decide`.
* Quantities Python holds as `float` (weights in kilograms) are embedded
  as exact rationals; the divisions by 1,000,000 and 1,000 performed by
  the code are exact in ℚ.
* `datetime` values are embedded at second precision where only
  comparisons matter (`is_token_expired`) and as a broken-down
  `PyDatetime` record where ISO serialization matters
  (`to_dict`/`from_dict`).
-/

namespace StrengthLog

/-- Firestore wire value: a one-key JSON object whose key names the type
(`stringValue`, `integerValue`, ...).  `unknown` stands for an object whose
tag is none of the recognized ones. -/
inductive FireValue where
  | stringValue (s : String)
  | integerValue (i : Int)
  | doubleValue (q : ℚ)
  | booleanValue (b : Bool)
  | timestampValue (s : String)
  | arrayValue (vs : List FireValue)
  | mapValue (fields : List (String × FireValue))
  | nullValue
  | referenceValue (s : String)
  | unknown (tag : String)
deriving Repr

/-- A decoded plain Python value, the output type of
`_parse_firestore_value`: str | int | float | bool | list | dict | None. -/
inductive PyVal where
  | str (s : String)
  | int (i : Int)
  | float (q : ℚ)
  | bool (b : Bool)
  | list (vs : List PyVal)
  | dict (fields : List (String × PyVal))
  | none
deriving Repr

mutual

/-- Embeds `StrengthLogClient._parse_firestore_value` (client.py:278-300): tests the
recognized tags in order; strings, booleans, timestamps and references pass
through, integers are parsed to integral numbers, arrays and maps recurse,
null and any unrecognized tag decode to `None`. -/
def parse_firestore_value : FireValue → PyVal
  | .stringValue s => .str s
  | .integerValue i => .int i
  | .doubleValue q => .float q
  | .booleanValue b => .bool b
  | .timestampValue s => .str s
  | .arrayValue vs => .list (parse_firestore_list vs)
  | .mapValue fields => .dict (parse_firestore_fields fields)
  | .nullValue => .none
  | .referenceValue s => .str s
  | .unknown _ => .none

/-- Decoding of an `arrayValue`'s item list (the list comprehension in
client.py:292). -/
def parse_firestore_list : List FireValue → List PyVal
  | [] => []
  | v :: vs => parse_firestore_value v :: parse_firestore_list vs

/-- Decoding of a `mapValue`'s field mapping (the dict comprehension in
client.py:295). -/
def parse_firestore_fields : List (String × FireValue) → List (String × PyVal)
  | [] => []
  | (k, v) :: fs => (k, parse_firestore_value v) :: parse_firestore_fields fs

end

/-- Embeds `StrengthLogClient._parse_firestore_doc` (client.py:302-305). -/
def parse_firestore_doc (docFields : List (String × FireValue)) : List (String × PyVal) :=
  parse_firestore_fields docFields

/-! ## A stable sort that computes

Python's `list.sort`/`sorted` is Timsort: a stable comparison sort.  The
claims proved here depend on sortedness of the output (and, for ties, on
nothing at all), so any stable sort is a faithful embedding.  We use a
structurally recursive insertion sort so that concrete scenarios evaluate
by `rfl`/`decide`. -/

/-- Insert `a` into `l` in front of the first element `b` with `le a b`.
For already-sorted `l` this keeps `l` sorted and places `a` after every
earlier element with an equal key (stability). -/
def insertLe (le : α → α → Bool) (a : α) : List α → List α
  | [] => [a]
  | b :: l => if le a b then a :: b :: l else b :: insertLe le a l

/-- Stable insertion sort with a boolean comparison. -/
def sortBy (le : α → α → Bool) : List α → List α
  | [] => []
  | a :: l => insertLe le a (sortBy le l)

/-! ## Accessors on wire maps

These mirror Python's chained `.get(..., {}).get(..., default)` accesses on
the raw wire JSON: a missing key, or a key holding a value of a different
wire type, yields the default. -/

/-- Mirrors `x.get("mapValue", {}).get("fields", {})`: the field list of a wire map,
`[]` for any non-map value. -/
def fireFields : FireValue → List (String × FireValue)
  | .mapValue fs => fs
  | _ => []

/-- Mirrors `fs.get(k)` on a wire field mapping. -/
def getFire (fs : List (String × FireValue)) (k : String) : Option FireValue :=
  fs.lookup k

/-- Mirrors `fs.get(k, {}).get("stringValue", "")`. -/
def getStr (fs : List (String × FireValue)) (k : String) : String :=
  match getFire fs k with
  | some (.stringValue s) => s
  | _ => ""

/-- Mirrors `int(fs.get(k, {}).get("integerValue", 0))`.  The wire carries integers
as decimal strings; the embedding carries them already parsed, so Python's
`int(...)` is the identity here. -/
def getInt (fs : List (String × FireValue)) (k : String) : Int :=
  match getFire fs k with
  | some (.integerValue i) => i
  | _ => 0

/-- Mirrors `fs.get(k, {}).get("booleanValue", False)`. -/
def getBool (fs : List (String × FireValue)) (k : String) : Bool :=
  match getFire fs k with
  | some (.booleanValue b) => b
  | _ => false

/-- Mirrors `doc["name"].split("/")[-1]`: the last path component of a document
name. -/
def doc_id_of_path (path : String) : String :=
  (path.splitOn "/").getLastD path

/-! ## Authentication: token expiry (`auth.py`) -/

/-- Embeds `FirebaseAuth.is_token_expired` (auth.py:25-29), with time as seconds
since an arbitrary epoch.  A `datetime` object is always truthy in Python,
so `if not self.token_expiry` is exactly the `None` test; five minutes is
300 seconds. -/
def is_token_expired (now : Int) (token_expiry : Option Int) : Bool :=
  match token_expiry with
  | Option.none => true
  | some expiry => decide (now ≥ expiry - 5 * 60)

/-! ## Workout sets (`_parse_set`, `_parse_workout` lines 228-235) -/

/-- Embeds `models.ExerciseSet`, with the kilogram weight as an exact rational. -/
structure ExerciseSet where
  exercise_id : String
  exercise_name : String
  order : Int
  reps : Int
  weight_kg : ℚ
  is_warmup : Bool
  rpe : Option ℚ
deriving Repr, DecidableEq

/-- Embeds `StrengthLogClient._parse_set` (client.py:243-274).  `cache` is the
client's `_exercises_cache`.  The Python function returns `None` only when
an exception escapes (e.g. `int(...)` on a malformed wire string); the
embedding performs that parse at wire-decoding time, so the result is
always present. -/
def parse_set (cache : List (String × String)) (set_data : FireValue) :
    Option ExerciseSet :=
  let fields := fireFields set_data
  let exercise_id := getStr fields "exercise"
  let exercise_name := (cache.lookup exercise_id).getD exercise_id
  let order := getInt fields "order"
  let is_warmup := getBool fields "warmup"
  -- Python local `variables`; renamed because `variables` is reserved in Lean
  let vars := fireFields ((getFire fields "variables").getD .nullValue)
  let reps := getInt vars "reps"
  let weight_micro := getInt vars "weight"
  let weight_micro :=
    if weight_micro = 0 then
      getInt vars "bodyweight" + getInt vars "extraWeight"
    else weight_micro
  let weight_kg : ℚ := weight_micro / 1000000
  let rpe_raw := getInt vars "rpe"
  let rpe : Option ℚ := if rpe_raw > 0 then some ((rpe_raw : ℚ) / 1000) else Option.none
  some {
    exercise_id := exercise_id
    exercise_name := exercise_name
    order := order
    reps := reps
    weight_kg := weight_kg
    is_warmup := is_warmup
    rpe := rpe
  }

/-- The set-assembly portion of `StrengthLogClient._parse_workout`
(client.py:228-235): walk the per-set mapping in its (arbitrary) iteration
order, parse each entry, drop failures, then `sets.sort(key=lambda s:
s.order)`. -/
def parse_workout_sets (cache : List (String × String))
    (fields : List (String × FireValue)) : List ExerciseSet :=
  let sets_field := fireFields ((getFire fields "sets").getD .nullValue)
  let sets := sets_field.filterMap (fun p => parse_set cache p.2)
  sortBy (fun a b => decide (a.order ≤ b.order)) sets

/-! ## Decoded-value helpers (Python truthiness and coercions) -/

/-- Python truthiness (`if not x`, `bool(x)`) on decoded values. -/
def pyTruthy : PyVal → Bool
  | .none => false
  | .bool b => b
  | .int i => decide (i ≠ 0)
  | .float q => decide (q ≠ 0)
  | .str s => decide (s ≠ "")
  | .list vs => !vs.isEmpty
  | .dict fs => !fs.isEmpty

/-- Python `str(...)` on decoded values.  Scalar cases are faithful; the
rendering of composite values (which Python would produce via `repr`) is a
placeholder no property here depends on. -/
def pyStr : PyVal → String
  | .str s => s
  | .int i => toString i
  | .bool true => "True"
  | .bool false => "False"
  | .none => "None"
  | .float q => toString q
  | .list _ => "<list>"
  | .dict _ => "<dict>"

/-- Python `int(...)` on decoded values: identity on integers, booleans as
0/1, floats truncated toward zero.  `int` of a malformed string or of a
composite value raises in Python; those cases are defaulted here and no
property depends on them. -/
def pyToInt : PyVal → Int
  | .int i => i
  | .bool b => if b then 1 else 0
  | .float q => q.num.tdiv (q.den : Int)
  | .str s => (s.toInt?).getD 0
  | _ => 0

/-- Python `float(...)` on decoded values, for the numeric cases the wire
produces; the raising/parsing cases are defaulted and unclaimed. -/
def pyToFloat : PyVal → ℚ
  | .int i => (i : ℚ)
  | .float q => q
  | .bool b => if b then 1 else 0
  | _ => 0

/-! ## Program sets (`_parse_program_sets`, client.py:522-575) -/

/-- Embeds `models.ProgramSet`. -/
structure ProgramSet where
  exercise_id : String
  exercise_name : Option String
  order : Int
  reps : Int
  weight : Option ℚ
  is_warmup : Bool
deriving Repr, DecidableEq

/-- Order key of a keyed-mapping set entry (client.py:533-535):
`order = set_data.get("order", 0); if not isinstance(order, int): order = 0`.
(Python's `bool` is a subclass of `int` and would slip through the
`isinstance` check there; the embedding treats booleans as non-integers.
No property here involves a boolean `order`.) -/
def program_set_order_dict (sd : List (String × PyVal)) : Int :=
  match sd.lookup "order" with
  | some (.int n) => n
  | _ => 0

/-- Order key of a plain-sequence set entry (client.py:540):
`set_data.get("order", i)`, the position being the default.  There is no
`isinstance` check in this branch; an explicit non-integer `order` would be
fed to `sort()` (raising on mixed key types).  The embedding substitutes
the positional index for non-integer orders; no property depends on it. -/
def program_set_order_list (i : Nat) (sd : List (String × PyVal)) : Int :=
  match sd.lookup "order" with
  | some (.int n) => n
  | _ => (i : Int)

/-- The keyed-mapping collection pass of `_parse_program_sets`
(client.py:530-536). -/
def collect_program_sets_dict (pairs : List (String × PyVal)) :
    List (Int × List (String × PyVal)) :=
  pairs.filterMap (fun p =>
    match p.2 with
    | .dict sd => some (program_set_order_dict sd, sd)
    | _ => Option.none)

/-- The plain-sequence collection pass of `_parse_program_sets`
(client.py:537-540). -/
def collect_program_sets_list : Nat → List PyVal → List (Int × List (String × PyVal))
  | _, [] => []
  | i, .dict sd :: rest => (program_set_order_list i sd, sd) :: collect_program_sets_list (i + 1) rest
  | i, _ :: rest => collect_program_sets_list (i + 1) rest

/-- Construction of one `ProgramSet` from a sorted `(order, entry)` pair
(client.py:545-573).  An entry whose `exercise` is missing or `None` is
skipped. -/
def build_program_set (p : Int × List (String × PyVal)) : Option ProgramSet :=
  let sd := p.2
  match sd.lookup "exercise" with
  | Option.none => Option.none
  | some PyVal.none => Option.none
  | some v =>
    let exercise_id := pyStr v
    let rw :=
      match sd.lookup "variables" with
      | some (.dict vfs) =>
          ((match vfs.lookup "reps" with
            | Option.none => 0
            | some PyVal.none => 0
            | some r => pyToInt r),
           (match vfs.lookup "weight" with
            | Option.none => Option.none
            | some PyVal.none => Option.none
            | some w => some (pyToFloat w)))
      | _ =>
          ((match sd.lookup "reps" with
            | Option.none => 0
            | some PyVal.none => 0
            | some r => pyToInt r),
           Option.none)
    let is_warmup := pyTruthy ((sd.lookup "warmup").getD (.bool false))
    some {
      exercise_id := exercise_id
      exercise_name := Option.none
      order := p.1
      reps := rw.1
      weight := rw.2
      is_warmup := is_warmup
    }

/-- Embeds `StrengthLogClient._parse_program_sets` (client.py:522-575): detect the
encoding (keyed mapping with explicit `order`, or plain sequence with the
position as default order), collect `(order, entry)` pairs, sort by order,
then build the `ProgramSet`s. -/
def parse_program_sets (wdata : List (String × PyVal)) : List ProgramSet :=
  match wdata.lookup "sets" with
  | Option.none => []
  | some v =>
    if !pyTruthy v then []
    else
      let sets_list :=
        match v with
        | .dict pairs => collect_program_sets_dict pairs
        | .list vs => collect_program_sets_list 0 vs
        | _ => []
      let sorted := sortBy (fun a b => decide (a.1 ≤ b.1)) sets_list
      sorted.filterMap build_program_set

/-! ## Exercise parsing (`_parse_exercise`, client.py:164-190) -/

/-- Embeds `models.Exercise`. -/
structure Exercise where
  id : String
  name : String
  name_translations : List (String × String)
deriving Repr, DecidableEq

/-- The display-name chain of `_parse_exercise` (client.py:170-181):
`loc.en` → `loc.sv` → name-map `en` → name-map `sv` → flat `name` string →
document id; an empty string falls through to the next step. -/
def parse_exercise_name (doc_id : String) (fields : List (String × FireValue)) : String :=
  let loc_field := fireFields ((getFire fields "loc").getD .nullValue)
  let name := getStr loc_field "en"
  let name := if name = "" then getStr loc_field "sv" else name
  let name :=
    if name = "" then
      let name_field := fireFields ((getFire fields "name").getD .nullValue)
      let n := getStr name_field "en"
      if n = "" then getStr name_field "sv" else n
    else name
  let name := if name = "" then getStr fields "name" else name
  if name = "" then doc_id else name

/-- Embeds `StrengthLogClient._parse_exercise` (client.py:164-190).  The Python
function returns `None` only when an exception escapes (a document without a
`name` path); the embedding takes the document path as given. -/
def parse_exercise (doc_name : String) (fields : List (String × FireValue)) :
    Option Exercise :=
  let doc_id := doc_id_of_path doc_name
  let translations := (fireFields ((getFire fields "loc").getD .nullValue)).filterMap
    (fun p =>
      match p.2 with
      | .stringValue s => some (p.1, s)
      | _ => Option.none)
  some {
    id := doc_id
    name := parse_exercise_name doc_id fields
    name_translations := translations
  }

/-- First non-empty string value in a localized map, in iteration order: the
"any present language" fallback named by claim C5 (and by
`_extract_localized_name`, which `_parse_exercise` does not use). -/
def first_lang_string : List (String × FireValue) → String
  | [] => ""
  | (_, .stringValue s) :: rest => if s = "" then first_lang_string rest else s
  | _ :: rest => first_lang_string rest

/-- Modelled from the claim's words (C5): display-name resolution through the
`loc` map preferring `en`, then `sv`, then any present language, then the
`name` map in the same order, then the flat `name` string, then the document
id.  Stated only to compare the claimed order against `parse_exercise_name`;
the code's `_parse_exercise` has no any-present-language step. -/
def claim_display_name (doc_id : String) (fields : List (String × FireValue)) : String :=
  let loc_field := fireFields ((getFire fields "loc").getD .nullValue)
  let n := getStr loc_field "en"
  let n := if n = "" then getStr loc_field "sv" else n
  let n := if n = "" then first_lang_string loc_field else n
  let name_field := fireFields ((getFire fields "name").getD .nullValue)
  let n := if n = "" then getStr name_field "en" else n
  let n := if n = "" then getStr name_field "sv" else n
  let n := if n = "" then first_lang_string name_field else n
  let n := if n = "" then getStr fields "name" else n
  if n = "" then doc_id else n

/-! ## Workouts order (`_extract_workouts_order`, client.py:512-520) -/

/-- Python `str.isdigit` restricted to ASCII: non-empty and all decimal
digits.  (Python's `isdigit` also accepts other Unicode digit characters;
the wire keys in question are ASCII indices.) -/
def str_isdigit (s : String) : Bool :=
  !s.data.isEmpty && s.data.all (fun c => c.isDigit)

/-- Numeric value of an all-digit key, Python `int(key)`. -/
def digits_to_nat (s : String) : Nat :=
  s.data.foldl (fun n c => n * 10 + (c.toNat - 48)) 0

/-- Python string `<=` (code-point lexicographic, the same order as Lean's
`String` order) as a boolean on the character lists: `s ≤ t` iff
`¬ t < s`.  Lean's own `String` decision procedure iterates over byte
positions and does not reduce in the kernel, so the embedding compares the
character lists directly. -/
def str_le (s t : String) : Bool :=
  !decide (t.data < s.data)

/-- Embeds `StrengthLogClient._extract_workouts_order` (client.py:512-520).  The
sort key is `int(k) if k.isdigit() else k`: when every key is a digit string
the entries sort numerically, when no key is a digit string they sort
lexically (Python string comparison is code-point lexicographic, as is
Lean's), and when the two kinds are mixed Python's `sorted` compares an
`int` against a `str` and raises `TypeError` — modelled as `none`.  A plain
list is taken in order; any other shape yields `[]`. -/
def extract_workouts_order (data : List (String × PyVal)) : Option (List String) :=
  match data.lookup "workoutsOrder" with
  | some (.dict pairs) =>
      if pairs.all (fun p => str_isdigit p.1) then
        some ((sortBy (fun a b => decide (digits_to_nat a.1 ≤ digits_to_nat b.1)) pairs).map
          (fun p => pyStr p.2))
      else if pairs.all (fun p => !str_isdigit p.1) then
        some ((sortBy (fun a b => str_le a.1 b.1) pairs).map (fun p => pyStr p.2))
      else
        Option.none
  | some (.list vs) => some (vs.map pyStr)
  | _ => some []

/-- Modelled from the claim's words (C8): entries of a mapping sorted
numerically when the keys are digit strings and lexically otherwise; a plain
list taken in order.  Stated only to compare the claimed behaviour with
`extract_workouts_order` on mixed-key mappings. -/
def claim_workouts_order (data : List (String × PyVal)) : Option (List String) :=
  match data.lookup "workoutsOrder" with
  | some (.dict pairs) =>
      if pairs.all (fun p => str_isdigit p.1) then
        some ((sortBy (fun a b => decide (digits_to_nat a.1 ≤ digits_to_nat b.1)) pairs).map
          (fun p => pyStr p.2))
      else
        some ((sortBy (fun a b => str_le a.1 b.1) pairs).map (fun p => pyStr p.2))
  | some (.list vs) => some (vs.map pyStr)
  | _ => some []

/-! ## Pagination (`_fetch_collection` client.py:352-388, and the
`get_workouts` page loop client.py:102-142)

The HTTP layer is abstracted to `server : Nat → PageResp`, the
(post-401-retry) response to the `n`-th page request; documents are
abstracted to identifier strings.  `fuel` bounds the unbounded Python
`while True` loop; every statement proved below supplies enough fuel. -/

/-- One page response: a document batch with an optional continuation
token, or an error response (status ≥ 400 after the 401 retry). -/
inductive PageResp where
  | ok (docs : List String) (next : Option String)
  | err (status : Nat)
deriving Repr, DecidableEq

/-- The `while True` loop of `_fetch_collection`: on an error response
`break` and return what was accumulated; otherwise extend the accumulator
and continue while a continuation token is present. -/
def fetch_collection_loop (server : Nat → PageResp) :
    Nat → Nat → List String → List String
  | 0, _, acc => acc
  | fuel + 1, n, acc =>
    match server n with
    | .err _ => acc
    | .ok docs next =>
      match next with
      | Option.none => acc ++ docs
      | some _ => fetch_collection_loop server fuel (n + 1) (acc ++ docs)

/-- Embeds `StrengthLogClient._fetch_collection` (client.py:352-388). -/
def fetch_collection (server : Nat → PageResp) (fuel : Nat) : List String :=
  fetch_collection_loop server fuel 0 []

/-- The page loop of `get_workouts` (client.py:102-142), document
accumulation only: each page is fetched through `_request`, which raises
`APIError` on any status ≥ 400, so an error response mid-pagination
propagates as an exception (`Except.error status`) and the documents of the
earlier pages are lost. -/
def get_workouts_pages (server : Nat → PageResp) :
    Nat → Nat → List String → Except Nat (List String)
  | 0, _, acc => .ok acc
  | fuel + 1, n, acc =>
    match server n with
    | .err status => .error status
    | .ok docs next =>
      match next with
      | Option.none => .ok (acc ++ docs)
      | some _ => get_workouts_pages server fuel (n + 1) (acc ++ docs)

/-! ## Single-document fetch (`_fetch_document`, client.py:330-350) -/

/-- An HTTP response: status code and body text. -/
structure HttpResp where
  status : Nat
  body : String
deriving Repr, DecidableEq

/-- Observable credential/network events of a single-document fetch. -/
inductive AuthEvent where
  | refresh
  | send
deriving Repr, DecidableEq

/-- Embeds `exceptions.APIError`: message (carrying the response body) and status
code. -/
structure APIError where
  message : String
  status_code : Nat
deriving Repr, DecidableEq

/-- Embeds `StrengthLogClient._fetch_document` (client.py:330-350).  `expired` is
`self._auth.is_token_expired` on entry (the proactive-refresh condition of
`_ensure_authenticated`); `first` is the response to the initial GET and
`retry` the response to the GET re-issued after a 401 (irrelevant
otherwise).  Returns the ordered event trace and the outcome; the `APIError`
message carries the response body (`f"Document fetch failed: {text}"` in
the source).  The embedding assumes an authenticated session whose
`refresh()` succeeds; their failures raise upstream of the retry policy
under scrutiny here. -/
def fetch_document (expired : Bool) (first retry : HttpResp) :
    List AuthEvent × Except APIError HttpResp :=
  let pre : List AuthEvent := if expired then [.refresh] else []
  let (events, resp) :=
    if first.status = 401 then
      (pre ++ [.send, .refresh, .send], retry)
    else
      (pre ++ [.send], first)
  if resp.status ≥ 400 then
    (events, .error { message := resp.body, status_code := resp.status })
  else
    (events, .ok resp)

/-! ## Exercise-name cache (`_resolve_exercise_names` client.py:146-162,
`get_exercises` client.py:79-86, and the back-fill in `get_program`
client.py:499-501) -/

/-- The name chain of `_resolve_exercise_names` (client.py:152-158):
`loc.en or loc.sv`, then name-map `en or sv`, then the flat `name` string —
the `_parse_exercise` chain without the document-id fallback. -/
def resolve_name_fields (fields : List (String × FireValue)) : String :=
  let loc_field := fireFields ((getFire fields "loc").getD .nullValue)
  let name := getStr loc_field "en"
  let name := if name = "" then getStr loc_field "sv" else name
  let name :=
    if name = "" then
      let name_field := fireFields ((getFire fields "name").getD .nullValue)
      let n := getStr name_field "en"
      if n = "" then getStr name_field "sv" else n
    else name
  if name = "" then getStr fields "name" else name

/-- The per-id loop of `_resolve_exercise_names`: fetch each missing id
(`server id = none` models a request or parse failure, caught and skipped),
resolve its name, and cache it only when a non-empty name was found.
Returns the updated cache and the list of ids fetched. -/
def resolve_loop (server : String → Option (List (String × FireValue))) :
    List (String × String) → List String → List (String × String) × List String
  | cache, [] => (cache, [])
  | cache, id :: rest =>
    let cache' :=
      match server id with
      | Option.none => cache
      | some fields =>
        let name := resolve_name_fields fields
        if name = "" then cache else cache ++ [(id, name)]
    let (c, log) := resolve_loop server cache' rest
    (c, id :: log)

/-- Embeds `StrengthLogClient._resolve_exercise_names` (client.py:146-162):
`missing = exercise_ids - set(cache)` (a set: each distinct uncached id,
fetched once within the call), then the per-id loop.  The argument `ids`
lists the requested ids in an arbitrary order, mirroring Python's set
iteration. -/
def resolve_exercise_names (server : String → Option (List (String × FireValue)))
    (cache : List (String × String)) (ids : List String) :
    List (String × String) × List String :=
  let missing := (ids.filter (fun i => (cache.lookup i).isNone)).dedup
  resolve_loop server cache missing

/-- Python dict assignment `d[k] = v` on the association-list model:
overwrite in place when the key exists, append otherwise (Python dicts keep
insertion order; keys occur at most once). -/
def dict_set (d : List (String × String)) (k v : String) : List (String × String) :=
  match d with
  | [] => [(k, v)]
  | (k1, v1) :: rest => if k1 = k then (k, v) :: rest else (k1, v1) :: dict_set rest k v

/-- The cache-population loop of `get_exercises` (client.py:79-86): each
parsed exercise document writes `cache[exercise.id] = exercise.name`. -/
def get_exercises_cache (cache : List (String × String))
    (docs : List (String × List (String × FireValue))) : List (String × String) :=
  docs.foldl
    (fun c doc =>
      match parse_exercise doc.1 doc.2 with
      | some e => dict_set c e.id e.name
      | Option.none => c)
    cache

/-- The back-fill of `get_program` (client.py:499-501):
`s.exercise_name = self._exercises_cache.get(s.exercise_id, s.exercise_id)`. -/
def denormalize_program_set (cache : List (String × String)) (s : ProgramSet) :
    ProgramSet :=
  { s with exercise_name := some ((cache.lookup s.exercise_id).getD s.exercise_id) }

/-! ## Auth session state serialization (`to_dict` / `from_dict`,
auth.py:86-102)

`datetime` values are embedded broken-down, exactly the components
`datetime.isoformat` prints: date, time, microseconds, and an optional
fixed utc offset in minutes (`None` = naive).  `isoformat` emits
`YYYY-MM-DDTHH:MM:SS`, appends `.ffffff` only when the microsecond is
non-zero, and appends `±HH:MM` only when the value is timezone-aware;
`datetime.fromisoformat` parses everything `isoformat` emits (it accepts
more, but the round trip only exercises this grammar). -/

/-- Two zero-padded decimal digits (`%02d` for `n < 100`). -/
def pad2c (n : Nat) : List Char :=
  [Nat.digitChar (n / 10 % 10), Nat.digitChar (n % 10)]

/-- Four zero-padded decimal digits (`%04d` for `n < 10000`). -/
def pad4c (n : Nat) : List Char :=
  pad2c (n / 100) ++ pad2c (n % 100)

/-- Six zero-padded decimal digits (`%06d` for `n < 1000000`). -/
def pad6c (n : Nat) : List Char :=
  pad2c (n / 10000) ++ pad2c (n / 100 % 100) ++ pad2c (n % 100)

/-- A Python `datetime`, broken down as `isoformat` renders it. -/
structure PyDatetime where
  year : Nat
  month : Nat
  day : Nat
  hour : Nat
  minute : Nat
  second : Nat
  microsecond : Nat
  tz_minutes : Option Int
deriving Repr, DecidableEq

/-- Component bounds under which the printed form re-parses.  Real
`datetime` values satisfy much stronger bounds (month ≤ 12, hour < 24,
`|offset|` < 1440); only these weaker ones are needed. -/
def PyDatetime.Valid (d : PyDatetime) : Prop :=
  d.year < 10000 ∧ d.month < 100 ∧ d.day < 100 ∧ d.hour < 100 ∧
    d.minute < 100 ∧ d.second < 100 ∧ d.microsecond < 1000000 ∧
    d.tz_minutes.all (fun off => off.natAbs < 1440) = true

/-- The `±HH:MM` suffix of an aware `datetime`'s `isoformat` (empty for a
naive one). -/
def tzChars : Option Int → List Char
  | Option.none => []
  | some off =>
    (if off < 0 then '-' else '+') :: (pad2c (off.natAbs / 60) ++ ':' :: pad2c (off.natAbs % 60))

/-- Embeds `datetime.isoformat` as a character list. -/
def isoChars (d : PyDatetime) : List Char :=
  pad4c d.year ++ '-' :: pad2c d.month ++ '-' :: pad2c d.day ++
    'T' :: pad2c d.hour ++ ':' :: pad2c d.minute ++ ':' :: pad2c d.second ++
    (if d.microsecond = 0 then [] else '.' :: pad6c d.microsecond) ++
    tzChars d.tz_minutes

/-- Embeds `datetime.isoformat`. -/
def isoformat (d : PyDatetime) : String :=
  String.mk (isoChars d)

/-- Parse two decimal digits. -/
def parse2c (c1 c2 : Char) : Option Nat :=
  if c1.isDigit && c2.isDigit then some ((c1.toNat - 48) * 10 + (c2.toNat - 48))
  else Option.none

/-- Parse the optional `±HH:MM` offset suffix. -/
def parse_tz : List Char → Option (Option Int)
  | [] => some Option.none
  | sign :: h1 :: h2 :: ':' :: m1 :: m2 :: [] =>
    (match parse2c h1 h2, parse2c m1 m2 with
     | some h, some m =>
       if sign = '+' then some (some ((h * 60 + m : Nat) : Int))
       else if sign = '-' then some (some (-((h * 60 + m : Nat) : Int)))
       else Option.none
     | _, _ => Option.none)
  | _ => Option.none

/-- Parse the optional `.ffffff` fraction followed by the optional offset. -/
def parse_frac_tz : List Char → Option (Nat × Option Int)
  | '.' :: u1 :: u2 :: u3 :: u4 :: u5 :: u6 :: rest =>
    (match parse2c u1 u2, parse2c u3 u4, parse2c u5 u6, parse_tz rest with
     | some a, some b, some c, some tz => some (a * 10000 + b * 100 + c, tz)
     | _, _, _, _ => Option.none)
  | rest =>
    (match parse_tz rest with
     | some tz => some (0, tz)
     | Option.none => Option.none)

/-- Embeds `datetime.fromisoformat` on the grammar `isoformat` emits; a
non-conforming string yields `none` (Python raises `ValueError`). -/
def fromisoformatChars : List Char → Option PyDatetime
  | y1 :: y2 :: y3 :: y4 :: '-' :: mo1 :: mo2 :: '-' :: d1 :: d2 ::
      'T' :: h1 :: h2 :: ':' :: mi1 :: mi2 :: ':' :: s1 :: s2 :: rest =>
    (match parse2c y1 y2, parse2c y3 y4, parse2c mo1 mo2, parse2c d1 d2,
           parse2c h1 h2, parse2c mi1 mi2, parse2c s1 s2, parse_frac_tz rest with
     | some yhi, some ylo, some mo, some da, some ho, some mi, some se, some (us, tz) =>
       some ⟨yhi * 100 + ylo, mo, da, ho, mi, se, us, tz⟩
     | _, _, _, _, _, _, _, _ => Option.none)
  | _ => Option.none

/-- Embeds `datetime.fromisoformat`. -/
def fromisoformat (s : String) : Option PyDatetime :=
  fromisoformatChars s.data

/-- Embeds the `FirebaseAuth` credential state (auth.py:15-19). -/
structure FirebaseAuth where
  id_token : Option String
  refresh_token : Option String
  user_id : Option String
  token_expiry : Option PyDatetime
deriving Repr, DecidableEq

/-- The serialized session state `to_dict` produces and `from_dict`
consumes: the four credential fields, the expiry as an ISO string. -/
structure AuthDict where
  id_token : Option String
  refresh_token : Option String
  user_id : Option String
  token_expiry : Option String
deriving Repr, DecidableEq

/-- Embeds `FirebaseAuth.to_dict` (auth.py:86-92): `token_expiry.isoformat()` when
an expiry is held (`datetime` objects are always truthy), `None`
otherwise. -/
def FirebaseAuth.to_dict (a : FirebaseAuth) : AuthDict :=
  { id_token := a.id_token
    refresh_token := a.refresh_token
    user_id := a.user_id
    token_expiry := a.token_expiry.map isoformat }

/-- Embeds `FirebaseAuth.from_dict` (auth.py:94-102): restore the three token
fields with `.get`, and parse `token_expiry` with
`datetime.fromisoformat` only when the stored value is truthy (a non-empty
string); a malformed stored string makes Python raise `ValueError`,
modelled as `none`. -/
def FirebaseAuth.from_dict (data : AuthDict) : Option FirebaseAuth :=
  match data.token_expiry with
  | Option.none =>
    some ⟨data.id_token, data.refresh_token, data.user_id, Option.none⟩
  | some s =>
    if s = "" then
      some ⟨data.id_token, data.refresh_token, data.user_id, Option.none⟩
    else
      match fromisoformat s with
      | some d => some ⟨data.id_token, data.refresh_token, data.user_id, some d⟩
      | Option.none => Option.none

/-! # Theorems -/

theorem parse_firestore_list_eq_map (vs : List FireValue) :
    parse_firestore_list vs = vs.map parse_firestore_value := by
  induction vs with
  | nil => rfl
  | cons v vs ih => simp [parse_firestore_list, ih]

theorem parse_firestore_fields_eq_map (fs : List (String × FireValue)) :
    parse_firestore_fields fs = fs.map (fun p => (p.1, parse_firestore_value p.2)) := by
  induction fs with
  | nil => rfl
  | cons p fs ih => cases p; simp [parse_firestore_fields, ih]

theorem mem_insertLe (le : α → α → Bool) (a x : α) (l : List α) :
    x ∈ insertLe le a l ↔ x = a ∨ x ∈ l := by
  induction l with
  | nil => simp [insertLe]
  | cons b l ih =>
    by_cases hab : le a b = true
    · simp only [insertLe, if_pos hab, List.mem_cons]
    · simp only [insertLe, if_neg hab, List.mem_cons, ih]
      tauto

theorem pairwise_insertLe (le : α → α → Bool)
    (trans : ∀ a b c, le a b = true → le b c = true → le a c = true)
    (total : ∀ a b, le a b || le b a) (a : α) (l : List α)
    (h : l.Pairwise (fun x y => le x y = true)) :
    (insertLe le a l).Pairwise (fun x y => le x y = true) := by
  induction l with
  | nil => simp [insertLe]
  | cons b l ih =>
    rw [List.pairwise_cons] at h
    by_cases hab : le a b = true
    · rw [insertLe, if_pos hab, List.pairwise_cons]
      refine ⟨?_, List.pairwise_cons.mpr h⟩
      intro x hx
      rcases List.mem_cons.mp hx with rfl | hx
      · exact hab
      · exact trans a b x hab (h.1 x hx)
    · rw [insertLe, if_neg hab, List.pairwise_cons]
      refine ⟨?_, ih h.2⟩
      intro x hx
      rcases (mem_insertLe le a x l).mp hx with heq | hx
      · rw [heq]
        have htot := total a b
        simp [hab] at htot
        exact htot
      · exact h.1 x hx

theorem pairwise_sortBy (le : α → α → Bool)
    (trans : ∀ a b c, le a b = true → le b c = true → le a c = true)
    (total : ∀ a b, le a b || le b a) (l : List α) :
    (sortBy le l).Pairwise (fun x y => le x y = true) := by
  induction l with
  | nil => simp [sortBy]
  | cons a l ih => exact pairwise_insertLe le trans total a _ ih

theorem perm_insertLe (le : α → α → Bool) (a : α) (l : List α) :
    (insertLe le a l).Perm (a :: l) := by
  induction l with
  | nil => simp [insertLe]
  | cons b l ih =>
    by_cases hab : le a b = true
    · rw [insertLe, if_pos hab]
    · rw [insertLe, if_neg hab]
      exact (ih.cons b).trans (List.Perm.swap a b l)

theorem perm_sortBy (le : α → α → Bool) (l : List α) :
    (sortBy le l).Perm l := by
  induction l with
  | nil => simp [sortBy]
  | cons a l ih => exact (perm_insertLe le a (sortBy le l)).trans (ih.cons a)

/-- C2: the Firestore value decoder returns strings, booleans and timestamps
as-is, parses integers to integral numbers, recursively decodes arrays to
ordered sequences and maps to field-name mappings, returns absent (`None`)
for null and for any unrecognized tag, and in particular decodes the nested
map `{a: integer 5, b: array [string "x"]}` to `{a: 5, b: ["x"]}`. -/
theorem C2_firestore_decoder :
    (∀ s, parse_firestore_value (.stringValue s) = .str s) ∧
    (∀ b, parse_firestore_value (.booleanValue b) = .bool b) ∧
    (∀ s, parse_firestore_value (.timestampValue s) = .str s) ∧
    (∀ i, parse_firestore_value (.integerValue i) = .int i) ∧
    (∀ vs, parse_firestore_value (.arrayValue vs) = .list (vs.map parse_firestore_value)) ∧
    (∀ fs, parse_firestore_value (.mapValue fs) =
      .dict (fs.map (fun p => (p.1, parse_firestore_value p.2)))) ∧
    parse_firestore_value .nullValue = .none ∧
    (∀ tag, parse_firestore_value (.unknown tag) = .none) ∧
    parse_firestore_value
        (.mapValue [("a", .integerValue 5), ("b", .arrayValue [.stringValue "x"])]) =
      .dict [("a", .int 5), ("b", .list [.str "x"])] := by
  refine ⟨fun s => rfl, fun b => rfl, fun s => rfl, fun i => rfl, ?_, ?_, rfl, fun t => rfl, rfl⟩
  · intro vs
    simp [parse_firestore_value, parse_firestore_list_eq_map]
  · intro fs
    simp [parse_firestore_value, parse_firestore_fields_eq_map]

/-- C3: a credential is considered expired exactly when no expiry is
recorded or the current time is at or past `expires_at` minus 5 minutes
(300 s); an expiry exactly 5 minutes ahead counts as expired, one 5 minutes
and 1 second ahead does not. -/
theorem C3_token_expiry :
    (∀ now : Int, is_token_expired now Option.none = true) ∧
    (∀ now expiry : Int,
      is_token_expired now (some expiry) = decide (now ≥ expiry - 300)) ∧
    (∀ now : Int, is_token_expired now (some (now + 300)) = true) ∧
    (∀ now : Int, is_token_expired now (some (now + 301)) = false) := by
  refine ⟨fun now => rfl, fun now expiry => by norm_num [is_token_expired], ?_, ?_⟩
  · intro now
    simp [is_token_expired]
  · intro now
    simp [is_token_expired]

/-- C4: a parsed set's weight in kilograms is the explicit `weight`
micro-unit integer divided by 1,000,000 when non-zero, and otherwise
`(bodyweight + extraWeight) / 1,000,000`; in particular `weight:0,
bodyweight:70000000, extraWeight:5000000` resolves to 75 kg. -/
theorem C4_weight_resolution :
    (∀ (cache : List (String × String)) (set_data : FireValue),
      (parse_set cache set_data).map ExerciseSet.weight_kg =
        some
          (let vars := fireFields ((getFire (fireFields set_data) "variables").getD .nullValue)
           let w := getInt vars "weight"
           ((if w = 0 then getInt vars "bodyweight" + getInt vars "extraWeight" else w : Int) : ℚ)
             / 1000000)) ∧
    (parse_set []
        (.mapValue [("variables", .mapValue
          [("weight", .integerValue 0),
           ("bodyweight", .integerValue 70000000),
           ("extraWeight", .integerValue 5000000)])])).map ExerciseSet.weight_kg =
      some 75 := by
  constructor
  · intro cache set_data
    rfl
  · simp [parse_set, fireFields, getFire, getInt, getStr, getBool, List.lookup]
    norm_num

theorem build_program_set_order (p : Int × List (String × PyVal)) (s : ProgramSet)
    (h : build_program_set p = some s) : s.order = p.1 := by
  simp only [build_program_set] at h
  split at h
  · exact absurd h (by simp)
  · exact absurd h (by simp)
  · simp only [Option.some.injEq] at h
    rw [← h]

theorem int_le_trans_decide (a b c : Int × List (String × PyVal)) :
    decide (a.1 ≤ b.1) = true → decide (b.1 ≤ c.1) = true → decide (a.1 ≤ c.1) = true := by
  intro h1 h2
  exact decide_eq_true (le_trans (of_decide_eq_true h1) (of_decide_eq_true h2))

theorem int_le_total_decide (a b : Int × List (String × PyVal)) :
    decide (a.1 ≤ b.1) || decide (b.1 ≤ a.1) := by
  rcases le_total a.1 b.1 with h | h <;> simp [h]

/-- C1: after assembly, the sets of a workout and of a program workout are
sorted non-decreasing by `order`, for every per-set mapping (hence for
every iteration order of the wire format's unordered per-set mapping). -/
theorem C1_sets_sorted_by_order :
    (∀ (cache : List (String × String)) (fields : List (String × FireValue)),
      (parse_workout_sets cache fields).Pairwise (fun a b => a.order ≤ b.order)) ∧
    (∀ wdata : List (String × PyVal),
      (parse_program_sets wdata).Pairwise (fun a b => a.order ≤ b.order)) := by
  constructor
  · intro cache fields
    refine (pairwise_sortBy _ ?_ ?_ _).imp (fun h => of_decide_eq_true h)
    · intro a b c h1 h2
      exact decide_eq_true (le_trans (of_decide_eq_true h1) (of_decide_eq_true h2))
    · intro a b
      rcases le_total a.order b.order with h | h <;> simp [h]
  · intro wdata
    unfold parse_program_sets
    split
    · exact List.Pairwise.nil
    · split
      · exact List.Pairwise.nil
      · refine List.Pairwise.filterMap build_program_set ?_
          (pairwise_sortBy _ int_le_trans_decide int_le_total_decide _)
        intro a a' r b hb b' hb'
        rw [build_program_set_order a b (Option.mem_def.mp hb),
          build_program_set_order a' b' (Option.mem_def.mp hb')]
        exact of_decide_eq_true r

/-- C5 fails on the code: for an exercise document whose `loc` map holds
only a language other than `en`/`sv` (here `de`) and which has no other
name source, the claimed resolution order ("then any present language")
would produce the German name, but `_parse_exercise` falls through to the
document id. -/
theorem C5_counterexample :
    parse_exercise_name "ex1"
        [("loc", .mapValue [("de", .stringValue "Bankdruecken")])] = "ex1" ∧
    claim_display_name "ex1"
        [("loc", .mapValue [("de", .stringValue "Bankdruecken")])] = "Bankdruecken" ∧
    (("ex1" : String) == "Bankdruecken") = false := by
  refine ⟨rfl, rfl, by decide⟩

/-- C5 (amended): `_parse_exercise` resolves the display name as `loc.en` →
`loc.sv` → name-map `en` → name-map `sv` → flat `name` string → document id
(with no any-present-language step); so with both `loc.en` and `loc.sv`
present `loc.en` wins, with only `loc.sv` it wins, with neither the flat
name wins, and with nothing the document id is used. -/
theorem C5_amended :
    (∀ (doc_name : String) (fields : List (String × FireValue)),
      (parse_exercise doc_name fields).map Exercise.name =
        some (parse_exercise_name (doc_id_of_path doc_name) fields)) ∧
    (∀ (doc_id : String) (fields : List (String × FireValue)),
      parse_exercise_name doc_id fields =
        (let loc := fireFields ((getFire fields "loc").getD .nullValue)
         let nm := fireFields ((getFire fields "name").getD .nullValue)
         if getStr loc "en" ≠ "" then getStr loc "en"
         else if getStr loc "sv" ≠ "" then getStr loc "sv"
         else if getStr nm "en" ≠ "" then getStr nm "en"
         else if getStr nm "sv" ≠ "" then getStr nm "sv"
         else if getStr fields "name" ≠ "" then getStr fields "name"
         else doc_id)) ∧
    parse_exercise_name "ex1"
        [("loc", .mapValue [("en", .stringValue "Bench Press"),
                            ("sv", .stringValue "Bankpress")])] = "Bench Press" ∧
    parse_exercise_name "ex1"
        [("loc", .mapValue [("sv", .stringValue "Bankpress")])] = "Bankpress" ∧
    parse_exercise_name "ex1" [("name", .stringValue "Rows")] = "Rows" ∧
    parse_exercise_name "ex1" [] = "ex1" := by
  refine ⟨fun doc_name fields => rfl, ?_, rfl, rfl, rfl, rfl⟩
  intro doc_id fields
  simp only [parse_exercise_name]
  by_cases h1 : getStr (fireFields ((getFire fields "loc").getD .nullValue)) "en" = "" <;>
    by_cases h2 : getStr (fireFields ((getFire fields "loc").getD .nullValue)) "sv" = "" <;>
    by_cases h3 : getStr (fireFields ((getFire fields "name").getD .nullValue)) "en" = "" <;>
    by_cases h4 : getStr (fireFields ((getFire fields "name").getD .nullValue)) "sv" = "" <;>
    by_cases h5 : getStr fields "name" = "" <;>
    simp [h1, h2, h3, h4, h5]

theorem fetch_collection_loop_accum (server : Nat → PageResp)
    (docsF : Nat → List String) (tokF : Nat → String) (status : Nat) :
    ∀ (k fuel n : Nat) (acc : List String), k < fuel →
      (∀ i, i < k → server (n + i) = .ok (docsF (n + i)) (some (tokF (n + i)))) →
      server (n + k) = .err status →
      fetch_collection_loop server fuel n acc =
        acc ++ (List.range k).flatMap (fun i => docsF (n + i)) := by
  intro k
  induction k with
  | zero =>
    intro fuel n acc hfuel _ herr
    match fuel, hfuel with
    | fuel + 1, _ =>
      simp only [Nat.add_zero] at herr
      simp [fetch_collection_loop, herr]
  | succ k ih =>
    intro fuel n acc hfuel hok herr
    match fuel, hfuel with
    | fuel + 1, hfuel =>
      have h0 := hok 0 (Nat.succ_pos k)
      simp only [Nat.add_zero] at h0
      simp only [fetch_collection_loop, h0]
      rw [ih fuel (n + 1) (acc ++ docsF n) (Nat.lt_of_succ_lt_succ hfuel) ?_ ?_]
      · rw [List.range_succ_eq_map]
        simp [List.flatMap_map, Nat.add_assoc, Nat.add_comm, Nat.add_left_comm]
      · intro i hi
        rw [show n + 1 + i = n + (i + 1) by omega]
        exact hok (i + 1) (Nat.succ_lt_succ hi)
      · rw [show n + 1 + k = n + (k + 1) by omega]
        exact herr

theorem get_workouts_pages_error (server : Nat → PageResp)
    (docsF : Nat → List String) (tokF : Nat → String) (status : Nat) :
    ∀ (k fuel n : Nat) (acc : List String), k < fuel →
      (∀ i, i < k → server (n + i) = .ok (docsF (n + i)) (some (tokF (n + i)))) →
      server (n + k) = .err status →
      get_workouts_pages server fuel n acc = .error status := by
  intro k
  induction k with
  | zero =>
    intro fuel n acc hfuel _ herr
    match fuel, hfuel with
    | fuel + 1, _ =>
      simp only [Nat.add_zero] at herr
      simp [get_workouts_pages, herr]
  | succ k ih =>
    intro fuel n acc hfuel hok herr
    match fuel, hfuel with
    | fuel + 1, hfuel =>
      have h0 := hok 0 (Nat.succ_pos k)
      simp only [Nat.add_zero] at h0
      simp only [get_workouts_pages, h0]
      refine ih fuel (n + 1) (acc ++ docsF n) (Nat.lt_of_succ_lt_succ hfuel) ?_ ?_
      · intro i hi
        rw [show n + 1 + i = n + (i + 1) by omega]
        exact hok (i + 1) (Nat.succ_lt_succ hi)
      · rw [show n + 1 + k = n + (k + 1) by omega]
        exact herr

/-- C6 fails on the code as universally stated: the page loop of
`get_workouts` fetches through `_request`, which raises `APIError` on a
status ≥ 400, so an error on page 2 propagates as an exception and the
page-1 documents are lost — only the generic `_fetch_collection` helper
returns the accumulated documents. -/
theorem C6_counterexample :
    fetch_collection
        (fun n => match n with
          | 0 => .ok ["w1"] (some "t1")
          | 1 => .err 500
          | _ => .ok ["w3"] Option.none) 10 = ["w1"] ∧
    get_workouts_pages
        (fun n => match n with
          | 0 => .ok ["w1"] (some "t1")
          | 1 => .err 500
          | _ => .ok ["w3"] Option.none) 10 0 [] = .error 500 := by
  exact ⟨rfl, rfl⟩

/-- C6 (amended): in `_fetch_collection`, an error response on any page
after the first terminates the pagination loop and yields exactly the
documents accumulated from the earlier pages (no exception); the page loop
of `get_workouts`, by contrast, propagates the error as an `APIError`
exception. -/
theorem C6_amended (server : Nat → PageResp) (docsF : Nat → List String)
    (tokF : Nat → String) (k fuel status : Nat) (hfuel : k < fuel)
    (hok : ∀ i, i < k → server i = .ok (docsF i) (some (tokF i)))
    (herr : server k = .err status) :
    fetch_collection server fuel = (List.range k).flatMap docsF ∧
    get_workouts_pages server fuel 0 [] = .error status := by
  constructor
  · have := fetch_collection_loop_accum server docsF tokF status k fuel 0 []
      hfuel (by simpa using hok) (by simpa using herr)
    simpa [fetch_collection] using this
  · exact get_workouts_pages_error server docsF tokF status k fuel 0 []
      hfuel (by simpa using hok) (by simpa using herr)

/-- Witness for `C6_amended`: three pages, the second an error — the
collection fetch returns exactly the page-1 documents, the workout loop
raises. -/
theorem C6_amended_witness :
    fetch_collection
        (fun n => match n with
          | 0 => .ok ["d1", "d2"] (some "tok")
          | 1 => .err 503
          | _ => .ok ["d3"] Option.none) 10 = ["d1", "d2"] ∧
    get_workouts_pages
        (fun n => match n with
          | 0 => .ok ["d1", "d2"] (some "tok")
          | 1 => .err 503
          | _ => .ok ["d3"] Option.none) 10 0 [] = .error 503 := by
  have h := C6_amended
    (fun n => match n with
      | 0 => .ok ["d1", "d2"] (some "tok")
      | 1 => .err 503
      | _ => .ok ["d3"] Option.none)
    (fun n => match n with
      | 0 => ["d1", "d2"]
      | _ => [])
    (fun _ => "tok") 1 10 503 (by omega)
    (by intro i hi
        interval_cases i
        rfl)
    rfl
  exact ⟨h.1.trans rfl, h.2⟩

/-- C7: a single-document fetch refreshes proactively exactly when the
credential is expired, sends the request once more (and only once more)
after an unauthorized response — with a refresh in between — and resolves
from the final response: any final status ≥ 400 (a second 401 included)
fails with an `APIError` carrying the status code and the response body,
while a final status < 400 succeeds; at most two requests are ever sent. -/
theorem C7_fetch_document_policy :
    ∀ (expired : Bool) (first retry : HttpResp),
      ((fetch_document expired first retry).1.count AuthEvent.send =
        if first.status = 401 then 2 else 1) ∧
      ((fetch_document expired first retry).1.count AuthEvent.refresh =
        (if expired then 1 else 0) + (if first.status = 401 then 1 else 0)) ∧
      ((fetch_document expired first retry).2 =
        (let final := if first.status = 401 then retry else first
         if final.status ≥ 400 then
           Except.error { message := final.body, status_code := final.status }
         else Except.ok final)) := by
  intro expired first retry
  by_cases h401 : first.status = 401 <;>
    cases expired <;>
    simp [fetch_document, h401, List.count_cons, List.count_nil] <;>
    split <;>
    simp_all [List.count_cons, List.count_nil]

theorem str_le_true_iff (s t : String) : str_le s t = true ↔ s ≤ t := by
  simp only [str_le, Bool.not_eq_true', decide_eq_false_iff_not]
  rw [String.le_iff_toList_le]
  constructor
  · intro h
    exact not_lt.mp h
  · intro h
    exact not_lt.mpr h

/-- C8 fails on the code for mixed-key mappings: with keys `"0"` (a digit
string) and `"x"` (not), the claimed rule sorts the entries lexically and
yields `[wA, wB]`, but the code's sort key maps `"0"` to an `int` and `"x"`
to a `str`, and Python's `sorted` raises `TypeError` when comparing them
(the embedding's error value). -/
theorem C8_counterexample :
    extract_workouts_order
        [("workoutsOrder", .dict [("0", .str "wA"), ("x", .str "wB")])] = Option.none ∧
    claim_workouts_order
        [("workoutsOrder", .dict [("0", .str "wA"), ("x", .str "wB")])] =
      some ["wA", "wB"] := by
  exact ⟨rfl, rfl⟩

/-- C8 (amended): the ordered workout-id list comes from either encoding —
a plain list taken in order, or an index→id mapping whose entries are
sorted numerically when every key is a digit string and lexically when no
key is; a mapping mixing digit and non-digit keys makes Python's `sorted`
raise a `TypeError` (no order is produced).  In particular
`{"0":"wA", "2":"wC", "1":"wB"}` yields `[wA, wB, wC]`. -/
theorem C8_amended :
    extract_workouts_order
        [("workoutsOrder", .dict
          [("0", .str "wA"), ("2", .str "wC"), ("1", .str "wB")])] =
      some ["wA", "wB", "wC"] ∧
    (∀ ids : List String,
      extract_workouts_order [("workoutsOrder", .list (ids.map PyVal.str))] = some ids) ∧
    (∀ pairs : List (String × PyVal),
      pairs.all (fun p => str_isdigit p.1) = true →
      ∃ sortedPairs : List (String × PyVal),
        extract_workouts_order [("workoutsOrder", .dict pairs)] =
            some (sortedPairs.map (fun p => pyStr p.2)) ∧
          sortedPairs.Pairwise (fun a b => digits_to_nat a.1 ≤ digits_to_nat b.1) ∧
          sortedPairs.Perm pairs) ∧
    (∀ pairs : List (String × PyVal),
      pairs.all (fun p => !str_isdigit p.1) = true →
      ∃ sortedPairs : List (String × PyVal),
        extract_workouts_order [("workoutsOrder", .dict pairs)] =
            some (sortedPairs.map (fun p => pyStr p.2)) ∧
          sortedPairs.Pairwise (fun a b => a.1 ≤ b.1) ∧
          sortedPairs.Perm pairs) ∧
    (∀ pairs : List (String × PyVal),
      pairs.all (fun p => str_isdigit p.1) = false →
      pairs.all (fun p => !str_isdigit p.1) = false →
      extract_workouts_order [("workoutsOrder", .dict pairs)] = Option.none) := by
  refine ⟨rfl, ?_, ?_, ?_, ?_⟩
  · intro ids
    simp only [extract_workouts_order, List.lookup]
    induction ids with
    | nil => rfl
    | cons a l ih => simp_all [pyStr]
  · intro pairs hall
    refine ⟨sortBy (fun a b => decide (digits_to_nat a.1 ≤ digits_to_nat b.1)) pairs, ?_, ?_, ?_⟩
    · simp [extract_workouts_order, List.lookup, hall]
    · refine (pairwise_sortBy _ ?_ ?_ _).imp (fun h => of_decide_eq_true h)
      · intro a b c h1 h2
        exact decide_eq_true (le_trans (of_decide_eq_true h1) (of_decide_eq_true h2))
      · intro a b
        rcases Nat.le_total (digits_to_nat a.1) (digits_to_nat b.1) with h | h <;> simp [h]
    · exact perm_sortBy _ pairs
  · intro pairs hall
    by_cases hdig : pairs.all (fun p => str_isdigit p.1) = true
    · -- every key is simultaneously a digit string and not one: only the
      -- empty mapping, where the two sorts agree
      have hnil : pairs = [] := by
        cases pairs with
        | nil => rfl
        | cons p l =>
          simp [List.all_cons] at hdig hall
          rw [hdig.1] at hall
          simp at hall
      subst hnil
      exact ⟨[], by simp [extract_workouts_order, List.lookup, sortBy],
        List.Pairwise.nil, List.Perm.refl []⟩
    · refine ⟨sortBy (fun a b => str_le a.1 b.1) pairs, ?_, ?_, ?_⟩
      · have hd : pairs.all (fun p => str_isdigit p.1) = false := by
          simpa using hdig
        simp [extract_workouts_order, List.lookup, hd, hall]
      · refine (pairwise_sortBy _ ?_ ?_ _).imp (fun h => (str_le_true_iff _ _).mp h)
        · intro a b c h1 h2
          exact (str_le_true_iff _ _).mpr
            (le_trans ((str_le_true_iff _ _).mp h1) ((str_le_true_iff _ _).mp h2))
        · intro a b
          rcases le_total a.1 b.1 with h | h <;> simp [(str_le_true_iff _ _).mpr h]
      · exact perm_sortBy _ pairs
  · intro pairs hdig hnodig
    simp [extract_workouts_order, List.lookup, hdig, hnodig]

/-- Witness for `C8_amended`: an all-digit mapping, an all-non-digit
mapping and a mixed mapping, each satisfying the corresponding clause. -/
theorem C8_amended_witness :
    (∃ sortedPairs : List (String × PyVal),
      extract_workouts_order
          [("workoutsOrder", .dict [("2", .str "b"), ("1", .str "a")])] =
          some (sortedPairs.map (fun p => pyStr p.2)) ∧
        sortedPairs.Pairwise (fun a b => digits_to_nat a.1 ≤ digits_to_nat b.1) ∧
        sortedPairs.Perm [("2", .str "b"), ("1", .str "a")]) ∧
    (∃ sortedPairs : List (String × PyVal),
      extract_workouts_order
          [("workoutsOrder", .dict [("y", .str "b"), ("x", .str "a")])] =
          some (sortedPairs.map (fun p => pyStr p.2)) ∧
        sortedPairs.Pairwise (fun a b => a.1 ≤ b.1) ∧
        sortedPairs.Perm [("y", .str "b"), ("x", .str "a")]) ∧
    extract_workouts_order
        [("workoutsOrder", .dict [("1", .str "b"), ("x", .str "a")])] = Option.none := by
  refine ⟨C8_amended.2.2.1 _ (by decide), C8_amended.2.2.2.1 _ (by decide),
    C8_amended.2.2.2.2 _ (by decide) (by decide)⟩

theorem resolve_loop_log (server : String → Option (List (String × FireValue))) :
    ∀ (ids : List String) (cache : List (String × String)),
      (resolve_loop server cache ids).2 = ids := by
  intro ids
  induction ids with
  | nil => intro cache; rfl
  | cons id rest ih =>
    intro cache
    simp [resolve_loop, ih]

theorem resolve_loop_lookup (server : String → Option (List (String × FireValue))) :
    ∀ (ids : List String) (cache : List (String × String)) (k v : String),
      cache.lookup k = some v → (resolve_loop server cache ids).1.lookup k = some v := by
  intro ids
  induction ids with
  | nil => intro cache k v h; exact h
  | cons id rest ih =>
    intro cache k v h
    simp only [resolve_loop]
    apply ih
    cases hs : server id with
    | none => simpa [hs] using h
    | some fields =>
      by_cases hn : resolve_name_fields fields = ""
      · simpa [hs, hn] using h
      · simp [hs, hn, List.lookup_append, h, Option.or]

theorem dict_set_lookup_isSome_eq (k' v' k : String) :
    ∀ d : List (String × String),
      ((dict_set d k' v').lookup k).isSome = ((d.lookup k).isSome || (k == k')) := by
  intro d
  induction d with
  | nil => cases hk : k == k' <;> simp [dict_set, List.lookup, hk]
  | cons a rest ih =>
    obtain ⟨k1, v1⟩ := a
    by_cases h1 : k1 = k'
    · subst h1
      cases hk : k == k1 <;> simp [dict_set, List.lookup, hk]
    · cases hk : k == k1 <;> simp [dict_set, h1, List.lookup, hk, ih]

theorem dict_set_lookup_isSome (d : List (String × String)) (k' v' k : String)
    (h : (d.lookup k).isSome = true) :
    ((dict_set d k' v').lookup k).isSome = true := by
  rw [dict_set_lookup_isSome_eq, h, Bool.true_or]

theorem get_exercises_cache_isSome
    (docs : List (String × List (String × FireValue))) :
    ∀ (cache : List (String × String)) (k : String),
      (cache.lookup k).isSome = true →
      ((get_exercises_cache cache docs).lookup k).isSome = true := by
  induction docs with
  | nil => intro cache k h; exact h
  | cons doc docs ih =>
    intro cache k h
    simp only [get_exercises_cache, List.foldl_cons, parse_exercise]
    exact ih _ k (dict_set_lookup_isSome _ _ _ _ h)

/-- C9 fails on the code for ids that do not resolve: an exercise document
that yields no name (or a failing fetch) is not cached, so a later resolve
call fetches the same id from the exercise endpoint again — here twice in
one session. -/
theorem C9_counterexample :
    (resolve_exercise_names (fun _ => some []) [] ["e1"]).1 = [] ∧
    ((resolve_exercise_names (fun _ => some []) [] ["e1"]).2 ++
      (resolve_exercise_names (fun _ => some [])
        ((resolve_exercise_names (fun _ => some []) [] ["e1"]).1) ["e1"]).2).count "e1" = 2 := by
  exact ⟨rfl, rfl⟩

/-- C9 (amended): the exercise-name cache grows monotonically within a
session — no entry is ever removed, resolve never overwrites one, and the
`get_exercises` population loop never drops a key; within one resolve call
each distinct uncached id is fetched at most once and an already-cached id
is never fetched; an id that resolves to a name is never fetched again,
while one that fails to resolve may be retried by a later call.  Two
workout sets sharing one uncached id trigger exactly one fetch, after
which both carry the resolved name. -/
theorem C9_amended :
    (∀ (server : String → Option (List (String × FireValue)))
        (cache : List (String × String)) (ids : List String) (k v : String),
      cache.lookup k = some v →
      (resolve_exercise_names server cache ids).1.lookup k = some v) ∧
    (∀ (docs : List (String × List (String × FireValue)))
        (cache : List (String × String)) (k : String),
      (cache.lookup k).isSome = true →
      ((get_exercises_cache cache docs).lookup k).isSome = true) ∧
    (∀ (server : String → Option (List (String × FireValue)))
        (cache : List (String × String)) (ids : List String),
      (resolve_exercise_names server cache ids).2.Nodup ∧
      ∀ i ∈ (resolve_exercise_names server cache ids).2,
        cache.lookup i = Option.none) ∧
    (∀ (server : String → Option (List (String × FireValue)))
        (cache : List (String × String)) (ids : List String) (i : String),
      (cache.lookup i).isSome = true →
      i ∉ (resolve_exercise_names server cache ids).2) ∧
    ((resolve_exercise_names
        (fun id => if id = "e1"
          then some [("loc", .mapValue [("en", .stringValue "Bench Press")])]
          else Option.none)
        [] ["e1", "e1"]).2 = ["e1"] ∧
      (parse_set
          (resolve_exercise_names
            (fun id => if id = "e1"
              then some [("loc", .mapValue [("en", .stringValue "Bench Press")])]
              else Option.none)
            [] ["e1", "e1"]).1
          (.mapValue [("exercise", .stringValue "e1")])).map ExerciseSet.exercise_name =
        some "Bench Press" ∧
      (denormalize_program_set
          (resolve_exercise_names
            (fun id => if id = "e1"
              then some [("loc", .mapValue [("en", .stringValue "Bench Press")])]
              else Option.none)
            [] ["e1", "e1"]).1
          { exercise_id := "e1", exercise_name := Option.none, order := 0,
            reps := 0, weight := Option.none, is_warmup := false }).exercise_name =
        some "Bench Press") := by
  refine ⟨?_, ?_, ?_, ?_, rfl, rfl, rfl⟩
  · intro server cache ids k v h
    exact resolve_loop_lookup server _ cache k v h
  · intro docs cache k h
    exact get_exercises_cache_isSome docs cache k h
  · intro server cache ids
    rw [resolve_exercise_names, resolve_loop_log]
    constructor
    · exact List.nodup_dedup _
    · intro i hi
      rw [List.mem_dedup, List.mem_filter] at hi
      simpa [Option.isNone_iff_eq_none] using hi.2
  · intro server cache ids i h
    rw [resolve_exercise_names, resolve_loop_log]
    intro hi
    rw [List.mem_dedup, List.mem_filter] at hi
    rw [Option.isNone_iff_eq_none] at hi
    rw [hi.2] at h
    simp at h

/-- Witness for `C9_amended`: a concrete cache entry survives a resolve
call and a `get_exercises` pass, a cached id is not fetched, and the fetch
log of a call is duplicate-free over uncached ids. -/
theorem C9_amended_witness :
    (resolve_exercise_names (fun _ => Option.none) [("a", "A")] ["a", "b"]).1.lookup "a" =
      some "A" ∧
    ((get_exercises_cache [("a", "A")] []).lookup "a").isSome = true ∧
    ((resolve_exercise_names (fun _ => Option.none) [("a", "A")] ["a", "b"]).2.Nodup ∧
      ∀ i ∈ (resolve_exercise_names (fun _ => Option.none) [("a", "A")] ["a", "b"]).2,
        List.lookup i [("a", "A")] = Option.none) ∧
    "a" ∉ (resolve_exercise_names (fun _ => Option.none) [("a", "A")] ["a", "b"]).2 := by
  refine ⟨C9_amended.1 _ _ _ "a" "A" rfl, C9_amended.2.1 [] _ "a" rfl,
    C9_amended.2.2.1 _ _ _, C9_amended.2.2.2.1 _ _ _ "a" rfl⟩

theorem digitChar_isDigit : ∀ n, n < 10 → (Nat.digitChar n).isDigit = true := by
  decide

theorem digitChar_toNat : ∀ n, n < 10 → (Nat.digitChar n).toNat - 48 = n := by
  decide

theorem parse2c_pad2c (m : Nat) (hm : m < 100) :
    parse2c (Nat.digitChar (m / 10 % 10)) (Nat.digitChar (m % 10)) = some m := by
  have h1 : m / 10 % 10 < 10 := Nat.mod_lt _ (by norm_num)
  have h2 : m % 10 < 10 := Nat.mod_lt _ (by norm_num)
  simp only [parse2c, digitChar_isDigit _ h1, digitChar_isDigit _ h2,
    digitChar_toNat _ h1, digitChar_toNat _ h2, Bool.and_self, if_pos]
  congr 1
  omega

theorem parse_tz_tzChars (tz : Option Int)
    (htz : tz.all (fun off => off.natAbs < 1440) = true) :
    parse_tz (tzChars tz) = some tz := by
  cases tz with
  | none => rfl
  | some off =>
    have hlt : off.natAbs < 1440 := by simpa using htz
    have h60 : off.natAbs / 60 < 100 := by omega
    have h60b : off.natAbs % 60 < 100 := by omega
    by_cases hneg : off < 0
    · simp only [tzChars, if_pos hneg, pad2c, List.cons_append, List.nil_append]
      simp only [parse_tz]
      rw [parse2c_pad2c _ h60, parse2c_pad2c _ h60b]
      show some (some (-((off.natAbs / 60 * 60 + off.natAbs % 60 : Nat) : Int))) =
        some (some off)
      have hoff : -((off.natAbs / 60 * 60 + off.natAbs % 60 : Nat) : Int) = off := by
        omega
      rw [hoff]
    · simp only [tzChars, if_neg hneg, pad2c, List.cons_append, List.nil_append]
      simp only [parse_tz]
      rw [parse2c_pad2c _ h60, parse2c_pad2c _ h60b]
      show some (some ((off.natAbs / 60 * 60 + off.natAbs % 60 : Nat) : Int)) =
        some (some off)
      have hoff : ((off.natAbs / 60 * 60 + off.natAbs % 60 : Nat) : Int) = off := by
        omega
      rw [hoff]

theorem parse_frac_tz_not_dot (rest : List Char) (tz : Option Int)
    (h : parse_tz rest = some tz)
    (hhead : ∀ c cs, rest = c :: cs → ¬ c = '.') :
    parse_frac_tz rest = some (0, tz) := by
  unfold parse_frac_tz
  split
  · exfalso
    exact hhead _ _ rfl rfl
  · rw [h]

theorem parse_frac_tz_print (us : Nat) (hus : us < 1000000) (tz : Option Int)
    (htz : tz.all (fun off => off.natAbs < 1440) = true) :
    parse_frac_tz ((if us = 0 then [] else '.' :: pad6c us) ++ tzChars tz) =
      some (us, tz) := by
  by_cases h0 : us = 0
  · subst h0
    rw [if_pos rfl, List.nil_append]
    refine parse_frac_tz_not_dot (tzChars tz) tz (parse_tz_tzChars tz htz) ?_
    intro c cs hc
    cases tz with
    | none => simp [tzChars] at hc
    | some off =>
      by_cases hneg : off < 0 <;>
        simp only [tzChars, if_pos, if_neg, hneg] at hc <;>
        simp only [List.cons.injEq] at hc <;>
        rw [← hc.1] <;>
        decide
  · rw [if_neg h0]
    have ha : us / 10000 < 100 := by omega
    have hb : us / 100 % 100 < 100 := by omega
    have hc : us % 100 < 100 := by omega
    simp only [pad6c, pad2c, List.cons_append, List.nil_append]
    simp only [parse_frac_tz]
    rw [parse2c_pad2c _ ha, parse2c_pad2c _ hb, parse2c_pad2c _ hc,
      parse_tz_tzChars tz htz]
    simp only []
    congr 2
    omega

theorem fromisoformat_isoformat (d : PyDatetime) (h : d.Valid) :
    fromisoformat (isoformat d) = some d := by
  obtain ⟨y, mo, da, ho, mi, se, us, tz⟩ := d
  simp only [PyDatetime.Valid] at h
  obtain ⟨hy, hmo, hda, hho, hmi, hse, hus, htz⟩ := h
  show fromisoformatChars (isoChars ⟨y, mo, da, ho, mi, se, us, tz⟩) = _
  simp only [isoChars, pad4c, pad2c, List.cons_append, List.nil_append,
    List.append_assoc]
  simp only [fromisoformatChars]
  rw [parse2c_pad2c (y / 100) (by omega), parse2c_pad2c (y % 100) (by omega),
    parse2c_pad2c mo hmo, parse2c_pad2c da hda, parse2c_pad2c ho hho,
    parse2c_pad2c mi hmi, parse2c_pad2c se hse,
    parse_frac_tz_print us hus tz htz]
  simp only []
  congr 2
  omega

theorem isoformat_ne_empty (d : PyDatetime) : ¬ isoformat d = "" := by
  intro hcontra
  have hdata := congrArg String.data hcontra
  simp only [isoformat, isoChars, pad4c, pad2c, List.cons_append] at hdata
  simp at hdata

/-- C10: exporting the auth session state and importing it back is a
round-trip: for every `FirebaseAuth` state whose recorded expiry (if any)
is a well-formed `datetime`, `from_dict (to_dict a)` restores the same
`id_token`, `refresh_token`, `user_id` and `token_expiry` — the expiry
surviving the ISO-timestamp serialization — including states in which any
of the fields is absent. -/
theorem C10_auth_roundtrip (a : FirebaseAuth)
    (h : ∀ d ∈ a.token_expiry, d.Valid) :
    FirebaseAuth.from_dict a.to_dict = some a := by
  obtain ⟨it, rt, uid, exp⟩ := a
  cases exp with
  | none => rfl
  | some d =>
    have hv : d.Valid := h d (Option.mem_def.mpr rfl)
    show FirebaseAuth.from_dict
      { id_token := it, refresh_token := rt, user_id := uid,
        token_expiry := some (isoformat d) } = _
    simp only [FirebaseAuth.from_dict]
    rw [if_neg (isoformat_ne_empty d)]
    rw [fromisoformat_isoformat d hv]

/-- Witness for `C10_auth_roundtrip`: a fully-populated state with an
aware, microsecond-bearing expiry, and a state with every field absent. -/
theorem C10_auth_roundtrip_witness :
    FirebaseAuth.from_dict (FirebaseAuth.to_dict
        ⟨some "tok", some "ref", some "uid",
          some ⟨2026, 10, 12, 8, 30, 5, 123456, some 0⟩⟩) =
      some ⟨some "tok", some "ref", some "uid",
        some ⟨2026, 10, 12, 8, 30, 5, 123456, some 0⟩⟩ ∧
    FirebaseAuth.from_dict (FirebaseAuth.to_dict
        ⟨Option.none, Option.none, Option.none, Option.none⟩) =
      some ⟨Option.none, Option.none, Option.none, Option.none⟩ := by
  constructor
  · exact C10_auth_roundtrip _ (by
      intro d hd
      simp only [Option.mem_def, Option.some.injEq] at hd
      subst hd
      constructor <;> decide)
  · exact C10_auth_roundtrip _ (by intro d hd; simp at hd)

end StrengthLog
